import Mathlib

/-!
Shallow embedding of `scripts/update-ioc-database.js` (Shai-Hulud 2.0 IOC
database updater) and verification of its specification.

The JavaScript source is embedded as executable Lean definitions:
string-level operations are modelled over the character list `String.data`,
JavaScript objects loaded from JSON are modelled as structures with
`Option` fields (absent / `null` / `undefined` = `none`), and JavaScript
truthiness is made explicit where the source relies on it (`x || d` on a
string is falsy exactly on the empty string; on an object or array it is
falsy exactly on `null` / `undefined`).  JavaScript objects preserve string
key insertion order, modelled by association lists; `Array.prototype.sort`
is a stable sort (ES2019), modelled by `List.insertionSort`.
-/

/-- Model of JavaScript `String.prototype.trim` over a character list:
drop leading and trailing whitespace. -/
def trimChars (cs : List Char) : List Char :=
  ((cs.dropWhile Char.isWhitespace).reverse.dropWhile Char.isWhitespace).reverse

/-- Model of JavaScript `s.trim()`. -/
def jsTrim (s : String) : String :=
  String.mk (trimChars s.data)

/-- Helper for `jsSplit`: split a character list on a separator,
accumulating the current (reversed) chunk. -/
def splitCharsAux (sep : Char) : List Char → List Char → List (List Char)
  | [], acc => [acc.reverse]
  | c :: rest, acc =>
    if c = sep then acc.reverse :: splitCharsAux sep rest []
    else splitCharsAux sep rest (c :: acc)

/-- Model of JavaScript `s.split(sep)` for a single-character separator:
`"".split(sep) = [""]`, separators delimit possibly empty chunks. -/
def jsSplit (sep : Char) (s : String) : List String :=
  (splitCharsAux sep s.data []).map String.mk

/-- Helper for `parseCSVLine` (source lines 49-67): walk the characters of
the line with the accumulated `result` implicit in the returned list,
`current` the reversed characters of the field being built, and `inQuotes`
the quote mode.  A `"` toggles `inQuotes` and is never emitted; a `,`
outside quotes ends the field (trimmed); any other character is appended. -/
def parseCSVAux : List Char → List Char → Bool → List String
  | [], current, _ => [jsTrim (String.mk current.reverse)]
  | c :: rest, current, inQuotes =>
    if c = '"' then parseCSVAux rest current (!inQuotes)
    else if c = ',' ∧ inQuotes = false then
      jsTrim (String.mk current.reverse) :: parseCSVAux rest [] inQuotes
    else parseCSVAux rest (c :: current) inQuotes

/-- Embedding of `parseCSVLine(line)` (source lines 49-67). -/
def parseCSVLine (line : String) : List String :=
  parseCSVAux line.data [] false

/-- One parsed package record (source lines 96-101). -/
structure PackageRecord where
  name : String
  severity : String
  affectedVersions : List String
  sources : List String
deriving DecidableEq, Repr

/-- Embedding of `s.split(',').map(v => v.trim()).filter(v => v.length > 0)`
(source lines 86-89 and 93). -/
def splitClean (s : String) : List String :=
  ((jsSplit ',' s).map jsTrim).filter (fun v => v ≠ "")

/-- Body of the row loop of `parseConsolidatedCSV` (source lines 81-101)
for one non-blank, trimmed line.  The JavaScript destructuring
`const [packageName, packageVersions, sources] = parseCSVLine(line)` gives
`undefined` for missing positions; `undefined` and `""` are both falsy and
behave identically in every use below, so missing fields are modelled
as `""`.  The guard `if (!packageName || !packageVersions) continue`
rejects the row when either raw field is empty. -/
def parseRow (line : String) : Option PackageRecord :=
  if (parseCSVLine line)[0]?.getD "" = "" ∨ (parseCSVLine line)[1]?.getD "" = "" then none
  else some
    { name := (parseCSVLine line)[0]?.getD ""
      severity := "critical"
      affectedVersions := splitClean ((parseCSVLine line)[1]?.getD "")
      sources :=
        if (parseCSVLine line)[2]?.getD "" = "" then []
        else splitClean ((parseCSVLine line)[2]?.getD "") }

/-- Embedding of `parseConsolidatedCSV(csvContent)` (source lines 72-105):
trim the content, split on newlines, skip the header row, skip blank
(after trimming) rows, and parse each remaining row. -/
def parseConsolidatedCSV (csvContent : String) : List PackageRecord :=
  ((jsSplit '\n' (jsTrim csvContent)).drop 1).filterMap (fun l =>
    if jsTrim l = "" then none else parseRow (jsTrim l))

/-- Curated attack metadata (source lines 166-171); the source's `alias`
field is named `aliasName` because `alias` is a Lean keyword. -/
structure AttackInfo where
  name : String
  aliasName : String
  firstDetected : String
  description : String
deriving DecidableEq, Repr

/-- Curated structured indicators (source line 172).  The updater never
inspects the contents, only whether the loaded value is truthy; an object
is modelled as a key/value association list, with `{}` as `[]`. -/
abbrev Indicators : Type := List (String × String)

/-- A persisted package entry `{name, severity, affectedVersions}`
(source lines 174-178). -/
structure PersistedPackage where
  name : String
  severity : String
  affectedVersions : List String
deriving DecidableEq, Repr

/-- The previously persisted database as loaded by
`loadExistingDatabase` (source lines 110-118): arbitrary JSON, so every
field the updater reads is optional (`none` models an absent, `null` or
`undefined` field). -/
structure PrevDatabase where
  version : Option String
  attackInfo : Option AttackInfo
  indicators : Option Indicators
  acknowledgements : Option (List String)
  packages : Option (List PersistedPackage)
deriving DecidableEq, Repr

/-- Provenance block of the next database (source lines 160-165). -/
structure DataSource where
  url : String
  description : String
  sources : List String
  fetchedAt : String
deriving DecidableEq, Repr

/-- The next database built by `updateDatabase` (source lines 157-179);
the object literal always defines every field. -/
structure Database where
  version : String
  lastUpdated : String
  dataSource : DataSource
  attackInfo : AttackInfo
  indicators : Indicators
  acknowledgements : List String
  packages : List PersistedPackage
deriving DecidableEq, Repr

/-- JavaScript `x || d` where `x` is an optional string: the empty string
is falsy, as are `null` and `undefined`. -/
def orDefaultStr (v : Option String) (d : String) : String :=
  match v with
  | none => d
  | some s => if s = "" then d else s

/-- One step of `sourceCounts[source] = (sourceCounts[source] || 0) + 1`
(source line 143) on the insertion-ordered association list modelling the
`sourceCounts` object: a new key is appended, an existing key's count is
incremented in place. -/
def bumpCount (m : List (String × Nat)) (s : String) : List (String × Nat) :=
  if s ∈ m.map Prod.fst then
    m.map (fun p => if p.1 = s then (p.1, p.2 + 1) else p)
  else m ++ [(s, 1)]

/-- Embedding of the `sourceCounts` accumulation (source lines 140-145):
for each package, for each of its sources, bump that source's count. -/
def sourceCounts (packages : List PackageRecord) : List (String × Nat) :=
  packages.foldl (fun m pkg => pkg.sources.foldl bumpCount m) []

/-- The descending-count order used by
`Object.entries(sourceCounts).sort((a, b) => b[1] - a[1])`
(source lines 148-149): `a` comes no later than `b` when `a`'s count is at
least `b`'s; the JavaScript sort is stable, so ties keep insertion order. -/
abbrev countGE (a b : String × Nat) : Prop := b.2 ≤ a.2

instance : DecidableRel countGE := fun a b => Nat.decLe b.2 a.2

instance : IsTotal (String × Nat) countGE :=
  ⟨fun a b => Nat.le_total b.2 a.2⟩

instance : IsTrans (String × Nat) countGE :=
  ⟨fun _ _ _ hab hbc => Nat.le_trans hbc hab⟩

/-- Embedding of the sorted per-source report
`Object.entries(sourceCounts).sort((a, b) => b[1] - a[1])`
(source lines 148-152), via a stable sort on the insertion-ordered
entries. -/
def sortedSourceCounts (packages : List PackageRecord) : List (String × Nat) :=
  List.insertionSort countGE (sourceCounts packages)

/-- The default `attackInfo` seed (source lines 166-171). -/
def defaultAttackInfo : AttackInfo :=
  { name := "Shai-Hulud 2.0"
    aliasName := "The Second Coming"
    firstDetected := "2025-11-24T03:16:00Z"
    description := "Self-replicating npm worm targeting credential theft and supply chain compromise." }

/-- Embedding of the database object literal of `updateDatabase`
(source lines 156-179): `now` models `new Date().toISOString()`;
`Object.keys(sourceCounts).sort()` is the insertion-ordered key list
sorted ascending (lexicographically, the JavaScript default). -/
def buildDatabase (existing : Option PrevDatabase) (packages : List PackageRecord)
    (now : String) : Database :=
  { version := orDefaultStr (existing.bind (·.version)) "2.1.0"
    lastUpdated := now
    dataSource :=
      { url := "https://github.com/DataDog/indicators-of-compromise/tree/main/shai-hulud-2.0"
        description := "Consolidated IOCs from multiple security vendors"
        sources := List.insertionSort (· ≤ ·) ((sourceCounts packages).map Prod.fst)
        fetchedAt := now }
    attackInfo := (existing.bind (·.attackInfo)).getD defaultAttackInfo
    indicators := (existing.bind (·.indicators)).getD []
    acknowledgements := (existing.bind (·.acknowledgements)).getD []
    packages := packages.map (fun pkg =>
      { name := pkg.name, severity := pkg.severity, affectedVersions := pkg.affectedVersions }) }

/-- One HTTP response as seen by the `https.get` callback: status code,
status message, the `Location` header (empty when absent) and the
accumulated body text. -/
structure HttpResponse where
  statusCode : Nat
  statusMessage : String
  location : String
  body : String
deriving DecidableEq, Repr

/-- Outcome of a fetch: the resolved body, or the rejection
`HTTP <statusCode>: <statusMessage>` carrying both components. -/
inductive FetchResult where
  | success (body : String)
  | failure (statusCode : Nat) (statusMessage : String)
deriving DecidableEq, Repr

/-- The fixed feed URL (source line 22). -/
def CONSOLIDATED_IOC_URL : String :=
  "https://raw.githubusercontent.com/DataDog/indicators-of-compromise/main/shai-hulud-2.0/consolidated_iocs.csv"

/-- Embedding of `fetchUrl(url)` (source lines 28-44).  The network is a
pure map `world` from URL to response.  A 301/302 response re-issues the
request against the `Location` header and resolves with the nested result;
any other non-200 status rejects with the status code and status message;
a 200 resolves with the body.  The source recurses without a cycle guard,
so the embedding carries fuel: `none` models a fetch that has not resolved
within `fuel` requests (an infinite redirect loop never resolves).  The
returned list is the trace of URLs actually requested, in order. -/
def fetchUrl (world : String → HttpResponse) : Nat → String → Option (FetchResult × List String)
  | 0, _ => none
  | fuel + 1, url =>
    let res := world url
    if res.statusCode = 301 ∨ res.statusCode = 302 then
      match fetchUrl world fuel res.location with
      | none => none
      | some (r, trace) => some (r, url :: trace)
    else if res.statusCode = 200 then some (.success res.body, [url])
    else some (.failure res.statusCode res.statusMessage, [url])

/-- Outcome of one run of `updateDatabase` (source lines 123-212):
either the fetch rejected and the error propagated before any write
(`fatal`, source line 35 rejection reaching line 129's `await`), or the
merged database was written (`written`, source line 182), or the fetch
never resolved within the modelled fuel (`hung`). -/
inductive SyncOutcome where
  | fatal (statusCode : Nat) (statusMessage : String)
  | written (db : Database)
  | hung
deriving DecidableEq, Repr

/-- Embedding of the control flow of `updateDatabase` (source lines
123-212): fetch the feed, and only on success parse it, build the merged
database and write it.  `existing` is the already-loaded previous
database (`loadExistingDatabase`, which yields `none` on a missing or
unparseable file). -/
def runSync (world : String → HttpResponse) (fuel : Nat) (existing : Option PrevDatabase)
    (now : String) : SyncOutcome :=
  match fetchUrl world fuel CONSOLIDATED_IOC_URL with
  | none => .hung
  | some (.failure c m, _) => .fatal c m
  | some (.success body, _) => .written (buildDatabase existing (parseConsolidatedCSV body) now)

/-- The persisted file after a run: `updateDatabase` performs its single
`fs.writeFileSync` only on the `written` path, so on every other outcome
the previously persisted content is untouched. -/
def fileAfter (prevFile : Option PrevDatabase) (outcome : SyncOutcome) :
    Option PrevDatabase ⊕ Database :=
  match outcome with
  | .written db => Sum.inr db
  | _ => Sum.inl prevFile

/-- The non-blank data rows of a feed: split the trimmed content on
newlines, drop the header, trim each row, keep the non-empty ones.
`parseConsolidatedCSV` processes exactly these rows. -/
def dataRows (csvContent : String) : List String :=
  (((jsSplit '\n' (jsTrim csvContent)).drop 1).map jsTrim).filter (fun l => l ≠ "")

/-- Whether a (trimmed, non-blank) row passes the guard
`if (!packageName || !packageVersions) continue` of the row loop: the raw
name field and the raw versions field are both non-empty. -/
def rowKept (line : String) : Bool :=
  ((parseCSVLine line)[0]?.getD "" ≠ "" ∧ (parseCSVLine line)[1]?.getD "" ≠ "" : Bool)

/-- Append a key if unseen, keep the list otherwise: the effect of one
object-property insertion on the key order. -/
def addFirst (ks : List String) (s : String) : List String :=
  if s ∈ ks then ks else ks ++ [s]

/-- The keys of an insertion-ordered object built by repeated insertion:
each source in order of its first occurrence. -/
def firstSeenOrder (l : List String) : List String :=
  l.foldl addFirst []

/-- All source attributions of the records in feed order: one entry per
occurrence of a source identifier in a record's `sources` list. -/
def attributions (packages : List PackageRecord) : List String :=
  (packages.map (·.sources)).flatten

/-- Invariant tying the `sourceCounts` association list to the count
function it computes: keys are distinct, each entry carries its key's
count, absent keys have count zero and present keys a nonzero count. -/
def CountsWF (m : List (String × Nat)) (counts : String → Nat) : Prop :=
  (m.map Prod.fst).Nodup ∧
  (∀ p ∈ m, p.2 = counts p.1) ∧
  (∀ s, s ∉ m.map Prod.fst → counts s = 0) ∧
  (∀ s, s ∈ m.map Prod.fst → counts s ≠ 0)

/-- A feed whose second field uses quotes to embed a comma (spec §8,
quote handling). -/
def csvQuoted : String := "name,versions,sources\npkg-a,\"1.0.0,1.0.1\",vendorX"

/-- A feed row whose quoted versions field is the non-empty string `","`,
which splits to an empty version sequence. -/
def csvEmptyVersions : String := "name,versions,sources\npkg-a,\",\",vendorX"

/-- A feed with one well-formed row, one row with an empty name and one
row with an empty versions field (spec §8, row rejection). -/
def csvRowRejection : String :=
  "name,versions,sources\npkg-ok,1.0.0,vendorX\n,1.0.0,vendorX\npkg-b,,vendorX"

/-- A feed row whose sources field lists the same vendor twice. -/
def csvDupSource : String := "name,versions,sources\npkg-a,1.0.0,\"vendorX, vendorX\""

/-- A previous database whose `version` field is present but is the empty
string. -/
def prevEmptyVersion : PrevDatabase :=
  { version := some "", attackInfo := none, indicators := none,
    acknowledgements := none, packages := none }

/-- A previous database with curated fields present, including a
non-default `attackInfo` alias. -/
def prevCurated : PrevDatabase :=
  { version := some "3.4.5"
    attackInfo := some
      { name := "Shai-Hulud 2.0", aliasName := "Custom Alias",
        firstDetected := "2025-11-24T03:16:00Z", description := "curated text" }
    indicators := some [("maliciousFilePaths", "setup_bun.js")]
    acknowledgements := some ["vendorX research team"]
    packages := some [] }

/-- A network on which every URL answers 404. -/
def world404 : String → HttpResponse :=
  fun _ => { statusCode := 404, statusMessage := "Not Found", location := "", body := "" }

/-- The redirect target used by `worldRedirect`. -/
def mirrorUrl : String := "https://mirror.example/consolidated_iocs.csv"

/-- A network on which the feed URL answers 302 pointing at `mirrorUrl`,
and every other URL answers 200 with a one-row feed body. -/
def worldRedirect : String → HttpResponse :=
  fun url =>
    if url = CONSOLIDATED_IOC_URL then
      { statusCode := 302, statusMessage := "Found", location := mirrorUrl, body := "" }
    else
      { statusCode := 200, statusMessage := "OK", location := "",
        body := "name,versions,sources\npkg-a,1.0.0,vendorX" }

theorem trimChars_subset (cs : List Char) : trimChars cs ⊆ cs := by
  intro a ha
  unfold trimChars at ha
  rw [List.mem_reverse] at ha
  have h1 : a ∈ (cs.dropWhile Char.isWhitespace).reverse :=
    (List.dropWhile_sublist _).subset ha
  rw [List.mem_reverse] at h1
  exact (List.dropWhile_sublist _).subset h1

theorem parseCSVAux_ne_nil (cs current : List Char) (q : Bool) :
    parseCSVAux cs current q ≠ [] := by
  induction cs generalizing current q with
  | nil => simp [parseCSVAux]
  | cons c rest ih =>
    by_cases h1 : c = '"'
    · simp only [parseCSVAux]
      rw [if_pos h1]
      exact ih _ _
    · by_cases h2 : c = ',' ∧ q = false
      · simp only [parseCSVAux]
        rw [if_neg h1, if_pos h2]
        simp
      · simp only [parseCSVAux]
        rw [if_neg h1, if_neg h2]
        exact ih _ _

theorem parseCSVAux_no_quote (cs current : List Char) (q : Bool)
    (hcur : '"' ∉ current) : ∀ f ∈ parseCSVAux cs current q, '"' ∉ f.data := by
  induction cs generalizing current q with
  | nil =>
    intro f hf
    simp only [parseCSVAux, List.mem_singleton] at hf
    subst hf
    intro hq
    simp only [jsTrim] at hq
    have := trimChars_subset _ hq
    rw [List.mem_reverse] at this
    exact hcur this
  | cons c rest ih =>
    intro f hf
    by_cases h1 : c = '"'
    · simp only [parseCSVAux] at hf
      rw [if_pos h1] at hf
      exact ih _ _ hcur f hf
    · by_cases h2 : c = ',' ∧ q = false
      · simp only [parseCSVAux] at hf
        rw [if_neg h1, if_pos h2] at hf
        rcases List.mem_cons.mp hf with h | h
        · subst h
          intro hq
          simp only [jsTrim] at hq
          have := trimChars_subset _ hq
          rw [List.mem_reverse] at this
          exact hcur this
        · exact ih _ _ (by simp) f h
      · simp only [parseCSVAux] at hf
        rw [if_neg h1, if_neg h2] at hf
        refine ih _ _ ?_ f hf
        intro hm
        rcases List.mem_cons.mp hm with h | h
        · exact h1 h.symm
        · exact hcur h

theorem parseRow_name_ne (l : String) (r : PackageRecord) (h : parseRow l = some r) :
    r.name ≠ "" := by
  unfold parseRow at h
  split at h
  · exact absurd h (by simp)
  · next hguard =>
    push_neg at hguard
    injection h with h2
    subst h2
    exact hguard.1

theorem parseConsolidatedCSV_eq (csv : String) :
    parseConsolidatedCSV csv = (dataRows csv).filterMap parseRow := by
  unfold parseConsolidatedCSV dataRows
  generalize (jsSplit '\n' (jsTrim csv)).drop 1 = L
  induction L with
  | nil => rfl
  | cons a t ih =>
    by_cases h : jsTrim a = ""
    · simpa [List.filterMap_cons, List.filter_cons, h] using ih
    · simp only [List.filterMap_cons, List.filter_cons, h]
      cases hpa : parseRow (jsTrim a) <;> simp [List.filterMap_cons, hpa, h, ih]

theorem length_filterMap_add {α β : Type} (f : α → Option β) (l : List α) :
    (l.filterMap f).length + (l.filter (fun x => (f x).isNone)).length = l.length := by
  induction l with
  | nil => rfl
  | cons a t ih =>
    cases hfa : f a <;> simp [List.filterMap_cons, List.filter_cons, hfa] <;> omega

theorem parseRow_isSome_eq (line : String) : (parseRow line).isSome = rowKept line := by
  unfold parseRow rowKept
  split
  · next h => rcases h with h | h <;> simp [h]
  · next h =>
    push_neg at h
    simp [h.1, h.2]

/-- C4: parsing the single data row `pkg-a,"1.0.0,1.0.1",vendorX` after a
header yields exactly one record with name `pkg-a`, affected versions
`1.0.0` and `1.0.1` and sources `vendorX`: the comma inside double quotes
does not split the field; a double quote toggles the in-quotes mode; and
each field is trimmed of leading and trailing whitespace (third conjunct). -/
theorem c4_quoted_row :
    parseConsolidatedCSV csvQuoted =
      [{ name := "pkg-a", severity := "critical",
         affectedVersions := ["1.0.0", "1.0.1"], sources := ["vendorX"] }] ∧
    parseCSVLine "pkg-a,\"1.0.0,1.0.1\",vendorX" = ["pkg-a", "1.0.0,1.0.1", "vendorX"] ∧
    parseCSVLine " a , \"b , c\" , d " = ["a", "b , c", "d"] :=
  ⟨by decide, by decide, by decide⟩

/-- C9: the feed parser is deterministic and stateless.  In the embedding
`parseConsolidatedCSV` is a pure function of the feed text alone (it takes
no state), so two parses of identical text yield structurally identical
record sequences. -/
theorem c9_parse_deterministic (t₁ t₂ : String) (h : t₁ = t₂) :
    parseConsolidatedCSV t₁ = parseConsolidatedCSV t₂ := by
  rw [h]

theorem c9_parse_deterministic_witness :
    parseConsolidatedCSV csvQuoted = parseConsolidatedCSV csvQuoted :=
  c9_parse_deterministic csvQuoted csvQuoted rfl

/-- C10: no field produced by the quote-aware line scanner contains a
double-quote character (every `"` is consumed as a mode toggle and never
emitted), the scanner always yields a complete (non-empty) field list when
the line ends — also for an unterminated quote (`a,"b`) — and the RFC 4180
escaped-quote sequence `""` contributes nothing to the field. -/
theorem c10_quotes_consumed :
    (∀ line : String, (∀ f ∈ parseCSVLine line, '"' ∉ f.data) ∧ parseCSVLine line ≠ []) ∧
    parseCSVLine "a\"\"b" = ["ab"] ∧ parseCSVLine "a,\"b" = ["a", "b"] :=
  ⟨fun line => ⟨parseCSVAux_no_quote line.data [] false (by simp),
    parseCSVAux_ne_nil line.data [] false⟩, by decide, by decide⟩

theorem c10_quotes_consumed_witness :
    '"' ∉ ("b , c" : String).data ∧ parseCSVLine " a , \"b , c\" , d " ≠ [] :=
  ⟨(c10_quotes_consumed.1 " a , \"b , c\" , d ").1 "b , c" (by decide),
    (c10_quotes_consumed.1 " a , \"b , c\" , d ").2⟩

/-- C1 counterexample: the feed `name,versions,sources` + newline +
`pkg-a,",",vendorX` has a data row whose versions field is the non-empty
string `","`, which splits (on commas, trimmed, empties discarded) to the
empty version sequence; the row passes the guard — which tests only the
raw field strings — and the parser emits a record whose
`affectedVersions` is empty, so the claimed invariant fails. -/
theorem c1_counterexample :
    parseConsolidatedCSV csvEmptyVersions =
      [{ name := "pkg-a", severity := "critical",
         affectedVersions := [], sources := ["vendorX"] }] ∧
    ∃ r ∈ parseConsolidatedCSV csvEmptyVersions, r.affectedVersions = [] :=
  ⟨by decide,
    ⟨{ name := "pkg-a", severity := "critical", affectedVersions := [], sources := ["vendorX"] },
      by decide, rfl⟩⟩

/-- C1 (amended): every record produced by `parseConsolidatedCSV` has a
non-empty name, and a row is excluded exactly when its raw name field or
its raw versions field (after quote-aware splitting and trimming) is the
empty string: the output length equals the number of non-blank data rows
minus the count of rows rejected by that guard.  (A row whose raw versions
field is non-empty but splits to an empty version sequence is **not**
excluded and yields a record with empty `affectedVersions`.) -/
theorem c1_row_filtering (csv : String) :
    (∀ r ∈ parseConsolidatedCSV csv, r.name ≠ "") ∧
    (parseConsolidatedCSV csv).length +
      ((dataRows csv).filter (fun l => !(rowKept l))).length = (dataRows csv).length := by
  constructor
  · intro r hr
    rw [parseConsolidatedCSV_eq] at hr
    obtain ⟨l, -, hl⟩ := List.mem_filterMap.mp hr
    exact parseRow_name_ne l r hl
  · have hfe : ((dataRows csv).filter (fun l => !(rowKept l)))
        = ((dataRows csv).filter (fun x => (parseRow x).isNone)) := by
      apply List.filter_congr
      intro x _
      rw [← parseRow_isSome_eq x]
      cases parseRow x <;> rfl
    rw [parseConsolidatedCSV_eq, hfe]
    exact length_filterMap_add parseRow (dataRows csv)

theorem c1_row_filtering_witness :
    ({ name := "pkg-ok", severity := "critical", affectedVersions := ["1.0.0"],
       sources := ["vendorX"] } : PackageRecord).name ≠ "" ∧
    (parseConsolidatedCSV csvRowRejection).length +
      ((dataRows csvRowRejection).filter (fun l => !(rowKept l))).length
      = (dataRows csvRowRejection).length :=
  ⟨(c1_row_filtering csvRowRejection).1 _ (by decide),
    (c1_row_filtering csvRowRejection).2⟩

/-- C2: when a previous database is present and carries `attackInfo`,
`indicators` and `acknowledgements` values, the merged database preserves
all three verbatim, for every feed content; when the previous database is
absent, they are seeded with the fixed defaults (the `attackInfo` seed
names the campaign `Shai-Hulud 2.0` and its alias `The Second Coming`;
`indicators` and `acknowledgements` seed as empty structures). -/
theorem c2_curated_preserved (prev : PrevDatabase) (pkgs : List PackageRecord)
    (now : String) (ai : AttackInfo) (ind : Indicators) (ack : List String)
    (hai : prev.attackInfo = some ai) (hind : prev.indicators = some ind)
    (hack : prev.acknowledgements = some ack) :
    ((buildDatabase (some prev) pkgs now).attackInfo = ai ∧
     (buildDatabase (some prev) pkgs now).indicators = ind ∧
     (buildDatabase (some prev) pkgs now).acknowledgements = ack) ∧
    (∀ pkgs₂ now₂,
      (buildDatabase none pkgs₂ now₂).attackInfo = defaultAttackInfo ∧
      (buildDatabase none pkgs₂ now₂).attackInfo.name = "Shai-Hulud 2.0" ∧
      (buildDatabase none pkgs₂ now₂).attackInfo.aliasName = "The Second Coming" ∧
      (buildDatabase none pkgs₂ now₂).indicators = [] ∧
      (buildDatabase none pkgs₂ now₂).acknowledgements = []) := by
  refine ⟨⟨?_, ?_, ?_⟩, fun pkgs₂ now₂ => ⟨rfl, rfl, rfl, rfl, rfl⟩⟩ <;>
    simp [buildDatabase, hai, hind, hack]

theorem c2_curated_preserved_witness :
    ((buildDatabase (some prevCurated) [] "2025-12-01T00:00:00Z").attackInfo.aliasName
      = "Custom Alias" ∧
     (buildDatabase (some prevCurated) [] "2025-12-01T00:00:00Z").indicators
      = [("maliciousFilePaths", "setup_bun.js")] ∧
     (buildDatabase (some prevCurated) [] "2025-12-01T00:00:00Z").acknowledgements
      = ["vendorX research team"]) := by
  have h := c2_curated_preserved prevCurated [] "2025-12-01T00:00:00Z"
    { name := "Shai-Hulud 2.0", aliasName := "Custom Alias",
      firstDetected := "2025-11-24T03:16:00Z", description := "curated text" }
    [("maliciousFilePaths", "setup_bun.js")] ["vendorX research team"]
    rfl rfl rfl
  exact ⟨by rw [h.1.1], h.1.2.1, h.1.2.2⟩

/-- C3 counterexample: a previous database that is present, with
`version` equal to the empty string, is not carried forward: JavaScript
`existing?.version || '2.1.0'` treats the empty string as falsy and seeds
the default, so the merged version differs from the previous one. -/
theorem c3_counterexample :
    prevEmptyVersion.version = some "" ∧
    (buildDatabase (some prevEmptyVersion) [] "2025-12-01T00:00:00Z").version = "2.1.0" ∧
    (buildDatabase (some prevEmptyVersion) [] "2025-12-01T00:00:00Z").version ≠ "" :=
  ⟨rfl, rfl, by decide⟩

/-- C3 (amended): the merged database's version equals the previous
database's version whenever the previous database is present and its
version is a present, non-empty string; the fixed default `2.1.0` is
seeded when the previous database is absent, or its version field is
absent, or its version is the empty string. -/
theorem c3_version_carry (prev : PrevDatabase) (pkgs : List PackageRecord) (now : String) :
    (∀ v, prev.version = some v → v ≠ "" →
      (buildDatabase (some prev) pkgs now).version = v) ∧
    (prev.version = none → (buildDatabase (some prev) pkgs now).version = "2.1.0") ∧
    (prev.version = some "" → (buildDatabase (some prev) pkgs now).version = "2.1.0") ∧
    (buildDatabase none pkgs now).version = "2.1.0" := by
  refine ⟨?_, ?_, ?_, rfl⟩
  · intro v hv hne
    simp [buildDatabase, orDefaultStr, hv, hne]
  · intro hv
    simp [buildDatabase, orDefaultStr, hv]
  · intro hv
    simp [buildDatabase, orDefaultStr, hv]

theorem c3_version_carry_witness :
    (buildDatabase (some prevCurated) [] "2025-12-01T00:00:00Z").version = "3.4.5" ∧
    (buildDatabase (some prevEmptyVersion) [] "2025-12-01T00:00:00Z").version = "2.1.0" :=
  ⟨(c3_version_carry prevCurated [] "2025-12-01T00:00:00Z").1 "3.4.5" rfl (by decide),
    (c3_version_carry prevEmptyVersion [] "2025-12-01T00:00:00Z").2.2.1 rfl⟩

theorem countsWF_congr (m : List (String × Nat)) (c₁ c₂ : String → Nat)
    (h : ∀ t, c₁ t = c₂ t) (hw : CountsWF m c₁) : CountsWF m c₂ := by
  obtain ⟨h1, h2, h3, h4⟩ := hw
  refine ⟨h1, fun p hp => (h2 p hp).trans (h p.1), fun s hs => ?_, fun s hs => ?_⟩
  · rw [← h s]
    exact h3 s hs
  · rw [← h s]
    exact h4 s hs

theorem countsWF_bumpCount (m : List (String × Nat)) (counts : String → Nat) (s : String)
    (h : CountsWF m counts) :
    CountsWF (bumpCount m s) (fun t => if t = s then counts t + 1 else counts t) := by
  obtain ⟨hnd, hval, habs, hpres⟩ := h
  unfold bumpCount
  by_cases hs : s ∈ m.map Prod.fst
  · rw [if_pos hs]
    have hkeys : ((m.map fun p => if p.1 = s then (p.1, p.2 + 1) else p).map Prod.fst)
        = m.map Prod.fst := by
      rw [List.map_map]
      apply List.map_congr_left
      intro p _
      by_cases hp : p.1 = s <;> simp [hp]
    refine ⟨hkeys ▸ hnd, ?_, ?_, ?_⟩
    · intro q hq
      obtain ⟨p, hp, hpq⟩ := List.mem_map.mp hq
      by_cases hps : p.1 = s
      · rw [if_pos hps] at hpq
        subst hpq
        simp [hps, hval p hp]
      · rw [if_neg hps] at hpq
        subst hpq
        simp [hps, hval p hp]
    · intro t ht
      rw [hkeys] at ht
      have hts : t ≠ s := fun hts => ht (hts ▸ hs)
      simp [hts, habs t ht]
    · intro t ht
      rw [hkeys] at ht
      by_cases hts : t = s <;> simp [hts, hpres t ht]
  · rw [if_neg hs]
    have hkeys : ((m ++ [(s, 1)]).map Prod.fst) = m.map Prod.fst ++ [s] := by simp
    refine ⟨?_, ?_, ?_, ?_⟩
    · rw [hkeys]
      simp [List.nodup_append, hnd, hs]
    · intro q hq
      rcases List.mem_append.mp hq with hq | hq
      · have hqs : q.1 ≠ s := fun hqs => hs (hqs ▸ List.mem_map_of_mem Prod.fst hq)
        simp [hqs, hval q hq]
      · rw [List.mem_singleton.mp hq]
        simp [habs s hs]
    · intro t ht
      rw [hkeys] at ht
      simp only [List.mem_append, List.mem_singleton, not_or] at ht
      simp [ht.2, habs t ht.1]
    · intro t ht
      rw [hkeys] at ht
      rcases List.mem_append.mp ht with ht | ht
      · by_cases hts : t = s <;> simp [hts, hpres t ht]
      · rw [List.mem_singleton.mp ht]
        simp

theorem countsWF_foldl (l : List String) (m : List (String × Nat)) (counts : String → Nat)
    (h : CountsWF m counts) :
    CountsWF (l.foldl bumpCount m) (fun t => counts t + l.count t) := by
  induction l generalizing m counts with
  | nil =>
    exact countsWF_congr m counts _ (fun t => by simp) h
  | cons s l ih =>
    have hstep := ih (bumpCount m s) _ (countsWF_bumpCount m counts s h)
    refine countsWF_congr _ _ _ (fun t => ?_) hstep
    by_cases hts : t = s
    · simp [hts, List.count_cons]
      omega
    · simp [hts, List.count_cons]

theorem countsWF_sourceCounts_aux (pkgs : List PackageRecord) (m : List (String × Nat))
    (counts : String → Nat) (h : CountsWF m counts) :
    CountsWF (pkgs.foldl (fun m pkg => pkg.sources.foldl bumpCount m) m)
      (fun t => counts t + (attributions pkgs).count t) := by
  induction pkgs generalizing m counts with
  | nil =>
    exact countsWF_congr m counts _ (fun t => by simp [attributions]) h
  | cons p ps ih =>
    have hstep := ih (p.sources.foldl bumpCount m) _ (countsWF_foldl p.sources m counts h)
    refine countsWF_congr _ _ _ (fun t => ?_) hstep
    simp [attributions, List.count_append]
    omega

theorem countsWF_sourceCounts (pkgs : List PackageRecord) :
    CountsWF (sourceCounts pkgs) (fun s => (attributions pkgs).count s) := by
  have h0 : CountsWF [] (fun _ => 0) :=
    ⟨List.nodup_nil, fun p hp => absurd hp (List.not_mem_nil p),
      fun _ _ => rfl, fun s hs => absurd hs (List.not_mem_nil s)⟩
  have h := countsWF_sourceCounts_aux pkgs [] (fun _ => 0) h0
  exact countsWF_congr _ _ _ (fun t => by simp) h

theorem keys_bumpCount (m : List (String × Nat)) (s : String) :
    (bumpCount m s).map Prod.fst = addFirst (m.map Prod.fst) s := by
  unfold bumpCount addFirst
  by_cases hs : s ∈ m.map Prod.fst
  · rw [if_pos hs, if_pos hs, List.map_map]
    apply List.map_congr_left
    intro p _
    by_cases hp : p.1 = s <;> simp [hp]
  · rw [if_neg hs, if_neg hs]
    simp

theorem keys_foldl_bumpCount (l : List String) (m : List (String × Nat)) :
    (l.foldl bumpCount m).map Prod.fst = l.foldl addFirst (m.map Prod.fst) := by
  induction l generalizing m with
  | nil => rfl
  | cons s t ih =>
    simp only [List.foldl_cons]
    rw [ih, keys_bumpCount]

theorem keys_sourceCounts_aux (pkgs : List PackageRecord) (m : List (String × Nat)) :
    (pkgs.foldl (fun m pkg => pkg.sources.foldl bumpCount m) m).map Prod.fst
      = (attributions pkgs).foldl addFirst (m.map Prod.fst) := by
  induction pkgs generalizing m with
  | nil => rfl
  | cons p ps ih =>
    simp only [List.foldl_cons, attributions, List.map_cons, List.flatten_cons,
      List.foldl_append]
    rw [ih, keys_foldl_bumpCount]
    rfl

theorem keys_sourceCounts (pkgs : List PackageRecord) :
    (sourceCounts pkgs).map Prod.fst = firstSeenOrder (attributions pkgs) :=
  keys_sourceCounts_aux pkgs []

theorem mem_attributions (pkgs : List PackageRecord) (s : String) :
    s ∈ attributions pkgs ↔ ∃ p ∈ pkgs, s ∈ p.sources := by
  simp [attributions]

theorem mem_keys_sourceCounts (pkgs : List PackageRecord) (s : String) :
    s ∈ (sourceCounts pkgs).map Prod.fst ↔ ∃ p ∈ pkgs, s ∈ p.sources := by
  rw [← mem_attributions]
  obtain ⟨-, -, habs, hpres⟩ := countsWF_sourceCounts pkgs
  constructor
  · intro h
    have h1 : List.count s (attributions pkgs) ≠ 0 := hpres s h
    rw [← List.count_pos_iff]
    omega
  · intro h
    by_contra hk
    have h0 : List.count s (attributions pkgs) = 0 := habs s hk
    rw [← List.count_pos_iff] at h
    omega

theorem filter_orderedInsert_count (a : String × Nat) (l : List (String × Nat)) (c : Nat) :
    (List.orderedInsert countGE a l).filter (fun e => e.2 = c)
      = if a.2 = c then a :: l.filter (fun e => e.2 = c)
        else l.filter (fun e => e.2 = c) := by
  induction l with
  | nil => by_cases ha : a.2 = c <;> simp [List.orderedInsert, ha]
  | cons b t ih =>
    by_cases hab : countGE a b
    · simp only [List.orderedInsert, if_pos hab]
      by_cases ha : a.2 = c <;> by_cases hb : b.2 = c <;>
        simp [List.filter_cons, ha, hb]
    · simp only [List.orderedInsert, if_neg hab]
      by_cases ha : a.2 = c
      · have hb : ¬b.2 = c := by
          have hab2 : ¬b.2 ≤ a.2 := hab
          omega
        simp [List.filter_cons, ha, hb, ih]
      · by_cases hb : b.2 = c <;> simp [List.filter_cons, ha, hb, ih]

theorem filter_insertionSort_count (l : List (String × Nat)) (c : Nat) :
    (List.insertionSort countGE l).filter (fun e => e.2 = c)
      = l.filter (fun e => e.2 = c) := by
  induction l with
  | nil => rfl
  | cons a t ih =>
    simp only [List.insertionSort]
    rw [filter_orderedInsert_count]
    by_cases ha : a.2 = c <;> simp [List.filter_cons, ha, ih]

/-- C7: for every record sequence, the merged database's
`dataSource.sources` is exactly the duplicate-free union of all `sources`
fields across the records, sorted ascending: it is sorted, has no
duplicates, and contains a source identifier exactly when some record
attributes it. -/
theorem c7_sources_union (existing : Option PrevDatabase) (pkgs : List PackageRecord)
    (now : String) :
    List.Sorted (· ≤ ·) (buildDatabase existing pkgs now).dataSource.sources ∧
    (buildDatabase existing pkgs now).dataSource.sources.Nodup ∧
    ∀ s, s ∈ (buildDatabase existing pkgs now).dataSource.sources ↔ ∃ p ∈ pkgs, s ∈ p.sources := by
  refine ⟨List.sorted_insertionSort _ _, ?_, ?_⟩
  · exact ((List.perm_insertionSort _ _).nodup_iff).mpr (countsWF_sourceCounts pkgs).1
  · intro s
    rw [show (buildDatabase existing pkgs now).dataSource.sources
        = List.insertionSort (· ≤ ·) ((sourceCounts pkgs).map Prod.fst) from rfl,
      (List.perm_insertionSort _ _).mem_iff]
    exact mem_keys_sourceCounts pkgs s

theorem c7_sources_union_witness :
    "vendorX" ∈ (buildDatabase none (parseConsolidatedCSV csvQuoted)
      "2025-12-01T00:00:00Z").dataSource.sources :=
  ((c7_sources_union none (parseConsolidatedCSV csvQuoted) "2025-12-01T00:00:00Z").2.2
      "vendorX").mpr
    ⟨{ name := "pkg-a", severity := "critical", affectedVersions := ["1.0.0", "1.0.1"],
        sources := ["vendorX"] }, by decide, by decide⟩

/-- C8 counterexample: for the feed row `pkg-a,1.0.0,"vendorX, vendorX"`
(one record whose sources list names vendorX twice) the drift report lists
vendorX with count 2, yet only one record attributes vendorX as an
origin — the reported number is the occurrence count, not the record
count claimed. -/
theorem c8_counterexample :
    sortedSourceCounts (parseConsolidatedCSV csvDupSource) = [("vendorX", 2)] ∧
    ((parseConsolidatedCSV csvDupSource).filter
      (fun p => "vendorX" ∈ p.sources)).length = 1 :=
  ⟨by decide, by decide⟩

/-- C8 (amended): the drift report's per-source list is a permutation of
the `sourceCounts` entries sorted descending by count, where ties keep the
relative order of the entries list (for each count value, filtering the
report gives exactly the filtered entries in order); the entries list
carries each observed source in order of its first occurrence in the
record sequence, and each entry's count is the number of attribution
occurrences of that source across the records' `sources` lists (a record
listing a source twice contributes two, not one). -/
theorem c8_source_report (pkgs : List PackageRecord) :
    (sortedSourceCounts pkgs).Perm (sourceCounts pkgs) ∧
    List.Sorted countGE (sortedSourceCounts pkgs) ∧
    (∀ c, (sortedSourceCounts pkgs).filter (fun e => e.2 = c)
        = (sourceCounts pkgs).filter (fun e => e.2 = c)) ∧
    (sourceCounts pkgs).map Prod.fst = firstSeenOrder (attributions pkgs) ∧
    ∀ e ∈ sourceCounts pkgs, e.2 = (attributions pkgs).count e.1 := by
  refine ⟨List.perm_insertionSort _ _, List.sorted_insertionSort _ _, ?_,
    keys_sourceCounts pkgs, ?_⟩
  · intro c
    exact filter_insertionSort_count _ c
  · exact fun e he => (countsWF_sourceCounts pkgs).2.1 e he

theorem c8_source_report_witness :
    (("vendorX", 1) : String × Nat).2
      = (attributions (parseConsolidatedCSV csvQuoted)).count ("vendorX", 1).1 :=
  (c8_source_report (parseConsolidatedCSV csvQuoted)).2.2.2.2 ("vendorX", 1) (by decide)

/-- C5: a fetch whose response at the feed URL has a non-200, non-301,
non-302 status rejects with a transport error carrying the status code and
status text, after exactly one request; the sync aborts on that rejection
(`fatal` outcome) and no database write is attempted, so the previously
persisted database is left unchanged. -/
theorem c5_fatal_transport (world : String → HttpResponse) (fuel : Nat)
    (existing prevFile : Option PrevDatabase) (now : String)
    (h200 : (world CONSOLIDATED_IOC_URL).statusCode ≠ 200)
    (h301 : (world CONSOLIDATED_IOC_URL).statusCode ≠ 301)
    (h302 : (world CONSOLIDATED_IOC_URL).statusCode ≠ 302) :
    fetchUrl world (fuel + 1) CONSOLIDATED_IOC_URL
      = some (.failure (world CONSOLIDATED_IOC_URL).statusCode
          (world CONSOLIDATED_IOC_URL).statusMessage, [CONSOLIDATED_IOC_URL]) ∧
    runSync world (fuel + 1) existing now
      = .fatal (world CONSOLIDATED_IOC_URL).statusCode
          (world CONSOLIDATED_IOC_URL).statusMessage ∧
    fileAfter prevFile (runSync world (fuel + 1) existing now) = Sum.inl prevFile := by
  have hf : fetchUrl world (fuel + 1) CONSOLIDATED_IOC_URL
      = some (.failure (world CONSOLIDATED_IOC_URL).statusCode
          (world CONSOLIDATED_IOC_URL).statusMessage, [CONSOLIDATED_IOC_URL]) := by
    simp only [fetchUrl]
    rw [if_neg (by simp [h301, h302]), if_neg h200]
  have hr : runSync world (fuel + 1) existing now
      = .fatal (world CONSOLIDATED_IOC_URL).statusCode
          (world CONSOLIDATED_IOC_URL).statusMessage := by
    unfold runSync
    rw [hf]
  exact ⟨hf, hr, by rw [hr]; rfl⟩

theorem c5_fatal_transport_witness :
    fetchUrl world404 1 CONSOLIDATED_IOC_URL
      = some (.failure 404 "Not Found", [CONSOLIDATED_IOC_URL]) ∧
    runSync world404 1 none "2025-12-01T00:00:00Z" = .fatal 404 "Not Found" ∧
    fileAfter (some prevCurated) (runSync world404 1 none "2025-12-01T00:00:00Z")
      = Sum.inl (some prevCurated) :=
  c5_fatal_transport world404 0 none (some prevCurated) "2025-12-01T00:00:00Z"
    (by decide) (by decide) (by decide)

/-- C6: a fetch whose response status is 301 or 302 re-issues the request
against the `Location` header and resolves with that nested result (first
conjunct, with the redirecting URL prepended to the request trace); in
particular a 302 with a `Location` followed by a 200 at the target yields
the target's body with exactly two requests issued in total, i.e. exactly
one re-fetch (second conjunct). -/
theorem c6_redirect_follow :
    (∀ (world : String → HttpResponse) (fuel : Nat) (url : String),
      ((world url).statusCode = 301 ∨ (world url).statusCode = 302) →
      fetchUrl world (fuel + 1) url
        = (fetchUrl world fuel (world url).location).map (fun p => (p.1, url :: p.2))) ∧
    (∀ (world : String → HttpResponse) (fuel : Nat) (urlA urlB : String),
      (world urlA).statusCode = 302 → (world urlA).location = urlB →
      (world urlB).statusCode = 200 →
      fetchUrl world (fuel + 2) urlA
        = some (.success (world urlB).body, [urlA, urlB])) := by
  constructor
  · intro world fuel url h
    simp only [fetchUrl]
    rw [if_pos h]
    cases hm : fetchUrl world fuel (world url).location with
    | none => rfl
    | some p => cases p; rfl
  · intro world fuel urlA urlB h302 hloc h200
    show fetchUrl world (fuel + 1 + 1) urlA = _
    simp only [fetchUrl]
    rw [if_pos (Or.inr h302), hloc,
      if_neg (show ¬((world urlB).statusCode = 301 ∨ (world urlB).statusCode = 302) by
        simp [h200]),
      if_pos h200]

theorem c6_redirect_follow_witness :
    fetchUrl worldRedirect 2 CONSOLIDATED_IOC_URL
      = some (.success "name,versions,sources\npkg-a,1.0.0,vendorX",
          [CONSOLIDATED_IOC_URL, mirrorUrl]) :=
  c6_redirect_follow.2 worldRedirect 0 CONSOLIDATED_IOC_URL mirrorUrl
    (by decide) (by decide) (by decide)
